import Mathlib

/-!
Shallow embedding of the core of `RIIMTools/devicedata.py` (with the
shared gate-bucketing loop also present in `RIIMTools/devicecalibs.py`).

The embedded operations are:
* `RIIM.get_device_props`        — the reshaping loop of `get_device_props`
  (qubit rows, U2 list, CNOT bucket list); provider I/O and CSV writing
  are out of scope.
* `RIIM.get_cx_connected_qubits` — `get_cx_connected_qubits(df, ctl)`.
* `RIIM.get_cx_error_rate`       — `get_cx_error_rate(df, ctl, tgt)`.

Python exceptions (IndexError from list indexing, and the two explicit
`raise Exception(...)` calls) are modelled with `Except`/`Option` results.
Error-rate values are floats in Python; the code only stores and returns
them and never computes with them, so they are carried as an arbitrary
type parameter `V`.
-/

namespace RIIM

/-- Python `s.split(sep)` for a one-character separator, on the character
list of the string: consecutive separators yield empty pieces, a string
without the separator yields the single piece `[l]`. -/
def pySplit (c : Char) : List Char → List (List Char)
  | [] => [[]]
  | x :: xs =>
    match pySplit c xs with
    | [] => [[]]
    | y :: ys => if x = c then [] :: y :: ys else (x :: y) :: ys

/-- Helper for `nameBegins`: does the first list begin with the second
argument's characters? -/
def beginsAux : List Char → List Char → Bool
  | [], _ => true
  | _ :: _, [] => false
  | p :: ps, s :: ss => p == s && beginsAux ps ss

/-- Python `s.find(pat) == 0`: the string `s` begins with `pat`. -/
def nameBegins (pat s : String) : Bool :=
  beginsAux pat.data s.data

/-- One element of the raw record's `gates` sequence: a `name`, the
`qubits` id list, and the `value` fields of the `parameters` entries. -/
structure RawGate (V : Type) where
  name : String
  qubits : List Nat
  parameters : List V
deriving DecidableEq

/-- The raw device-properties record: per-qubit measurement-slot values
(`this_qubit[i]['value']` reads slot `i`) and the gate list. -/
structure RawDeviceRecord (V : Type) where
  qubits : List (List V)
  gates : List (RawGate V)
deriving DecidableEq

/-- One per-qubit row of the output table: label and the four scalar
measurement columns. -/
structure QubitRow (V : Type) where
  name : String
  t1 : V
  t2 : V
  freq : V
  readout : V
deriving DecidableEq

/-- The columnar output of `get_device_props` (the dict the Python
function returns; the `Last update date` column is external I/O data and
out of scope). `cnotError` is the `CNOT error rate` column: a list of
buckets, each bucket a list of single-entry `{gate_name: error_value}`
dictionaries. -/
structure CalibrationTable (V : Type) where
  qubit : List String
  t1 : List V
  t2 : List V
  freq : List V
  readout : List V
  u2Error : List V
  cnotError : List (List (String × V))
deriving DecidableEq

/-- Failures of the extraction loops (Python `IndexError`s). -/
inductive ExtractError
  | qubitSlotMissing (q i : Nat)
  | gateParamMissing
  | gateQubitMissing
deriving DecidableEq

/-- Failures of `get_cx_error_rate`: the two explicit `raise Exception`
calls, and a propagated indexing failure from a row lookup or a
malformed gate name. -/
inductive QueryError
  | distinctQubits
  | notConnected
  | indexError
deriving DecidableEq

variable {V : Type}

/-- One iteration of the qubit loop of `get_device_props`: build the
label `'Q' + str(q)` and read `this_qubit[i]['value']` at the positions
of interest `0, 1, 2, 4` (in that order). -/
def extractQubitRow (q : Nat) (slots : List V) : Except ExtractError (QubitRow V) :=
  match slots[0]? with
  | none => .error (.qubitSlotMissing q 0)
  | some a =>
    match slots[1]? with
    | none => .error (.qubitSlotMissing q 1)
    | some b =>
      match slots[2]? with
      | none => .error (.qubitSlotMissing q 2)
      | some c =>
        match slots[4]? with
        | none => .error (.qubitSlotMissing q 4)
        | some d => .ok ⟨"Q" ++ Nat.repr q, a, b, c, d⟩

/-- The qubit loop `for q in range(0, len(props_qubits))`, starting at
qubit id `q0`. -/
def extractQubitRowsFrom (q0 : Nat) : List (List V) → Except ExtractError (List (QubitRow V))
  | [] => .ok []
  | slots :: rest =>
    match extractQubitRow q0 slots with
    | .error e => .error e
    | .ok r =>
      match extractQubitRowsFrom (q0 + 1) rest with
      | .error e => .error e
      | .ok rs => .ok (r :: rs)

/-- The CNOT bucket list. -/
abbrev Buckets (V : Type) := List (List (String × V))

/-- The bucket update of the gate loop:
`if (ctl + 1) > len(list_cx_gates): list_cx_gates.append([dict_this_gate])
else: list_cx_gates[ctl].append(dict_this_gate)`. In the `else` branch
`ctl` is in range, so the `getD` default is never used. -/
def addCx (bs : Buckets V) (ctl : Nat) (d : String × V) : Buckets V :=
  if ctl + 1 > bs.length then bs ++ [[d]]
  else bs.set ctl (bs.getD ctl [] ++ [d])

/-- One iteration of the gate loop of `get_device_props`:
`params[0]['value']` is read before the name tests, then the `u2` and
`cx` name tests route the gate. -/
def stepGate (acc : List V × Buckets V) (g : RawGate V) :
    Except ExtractError (List V × Buckets V) :=
  match g.parameters[0]? with
  | none => .error .gateParamMissing
  | some e =>
    if nameBegins "u2" g.name then .ok (acc.1 ++ [e], acc.2)
    else if nameBegins "cx" g.name then
      match g.qubits[0]? with
      | none => .error .gateQubitMissing
      | some ctl => .ok (acc.1, addCx acc.2 ctl (g.name, e))
    else .ok acc

/-- The gate loop `for g in range(0, len(props_gates))`. -/
def processGates (acc : List V × Buckets V) :
    List (RawGate V) → Except ExtractError (List V × Buckets V)
  | [] => .ok acc
  | g :: gs =>
    match stepGate acc g with
    | .error e => .error e
    | .ok acc2 => processGates acc2 gs

/-- The reshaping core of `get_device_props`: run the qubit loop, then
the gate loop, and assemble the output columns. -/
def get_device_props (raw : RawDeviceRecord V) :
    Except ExtractError (CalibrationTable V) :=
  match extractQubitRowsFrom 0 raw.qubits with
  | .error e => .error e
  | .ok rows =>
    match processGates ([], []) raw.gates with
    | .error e => .error e
    | .ok acc =>
      .ok { qubit := rows.map QubitRow.name
            t1 := rows.map QubitRow.t1
            t2 := rows.map QubitRow.t2
            freq := rows.map QubitRow.freq
            readout := rows.map QubitRow.readout
            u2Error := acc.1
            cnotError := acc.2 }

/-- Parse one dictionary key of a bucket:
`'Q' + key.split('_')[1]`, `none` when position 1 does not exist. -/
def targetLabelOfKey (key : String) : Option String :=
  match (pySplit '_' key.data)[1]? with
  | none => none
  | some t => some ("Q" ++ t.asString)

/-- The loop of `get_cx_connected_qubits`: append the parsed label of
each dictionary's key, aborting on a malformed key. -/
def connectedLoop : List (String × V) → Option (List String)
  | [] => some []
  | d :: ds =>
    match targetLabelOfKey d.1 with
    | none => none
    | some lbl =>
      match connectedLoop ds with
      | none => none
      | some rest => some (lbl :: rest)

/-- `get_cx_connected_qubits(df, ctl)`: read `df['CNOT error rate'][ctl]`
(`none` models the IndexError when the row does not exist) and parse
each entry's key. -/
def get_cx_connected_qubits (df : CalibrationTable V) (ctl : Nat) :
    Option (List String) :=
  match df.cnotError[ctl]? with
  | none => none
  | some cxData => connectedLoop cxData

/-- The final loop of `get_cx_error_rate`: first dictionary holding the
key wins; falling off the end returns Python's implicit `None`. -/
def findRate (gateName : String) : List (String × V) → Option V
  | [] => none
  | d :: ds => if d.1 = gateName then some d.2 else findRate gateName ds

/-- `get_cx_error_rate(df, ctl, tgt)`. Note the reachability probe is
`get_cx_connected_qubits(df, 1)` in the source — the literal `1`, not
`ctl`. `Except.ok none` models the implicit `return None` fallthrough. -/
def get_cx_error_rate (df : CalibrationTable V) (ctl tgt : Nat) :
    Except QueryError (Option V) :=
  if ctl = tgt then .error .distinctQubits
  else
    match get_cx_connected_qubits df 1 with
    | none => .error .indexError
    | some conns =>
      if ("Q" ++ Nat.repr tgt) ∈ conns then
        match df.cnotError[ctl]? with
        | none => .error .indexError
        | some cxData => .ok (findRate ("cx" ++ Nat.repr ctl ++ "_" ++ Nat.repr tgt) cxData)
      else .error .notConnected

/-! Statement-side vocabulary: which gates of the raw record are routed
to the CNOT buckets, and a pure description of the bucket fold. -/

/-- The routing decision of `stepGate` for one gate: `some (ctl, name, e)`
exactly when the gate reaches the cx branch with control id `ctl` and
error value `e`; `none` when it is routed elsewhere or would fail. -/
def cxEntryOf (g : RawGate V) : Option (Nat × String × V) :=
  match g.parameters[0]? with
  | none => none
  | some e =>
    if nameBegins "u2" g.name then none
    else if nameBegins "cx" g.name then
      match g.qubits[0]? with
      | none => none
      | some ctl => some (ctl, g.name, e)
    else none

/-- The cx gates of a gate list, in encounter order, as
(control id, gate name, error value) triples. -/
def cxEntries (gs : List (RawGate V)) : List (Nat × String × V) :=
  gs.filterMap cxEntryOf

/-- Fold the bucket update over a list of cx entries. -/
def foldAdd (bs : Buckets V) (entries : List (Nat × String × V)) : Buckets V :=
  entries.foldl (fun b p => addCx b p.1 p.2) bs

/-- Control ids in gap-free order relative to the buckets already
created, starting from `n` existing buckets: each control id is at most
the current bucket count (so an append happens only at exactly the next
index). Control ids appearing in non-decreasing, gap-free order satisfy
this. -/
def ctlsOrdered : Nat → List Nat → Bool
  | _, [] => true
  | n, c :: cs => if c ≤ n then ctlsOrdered (if c = n then n + 1 else n) cs else false

/-- A successful `stepGate` updates the buckets by exactly the gate's
`cxEntryOf` routing. -/
theorem stepGate_ok_bucket {acc acc2 : List V × Buckets V} {g : RawGate V}
    (h : stepGate acc g = .ok acc2) :
    acc2.2 = foldAdd acc.2 (cxEntryOf g).toList := by
  unfold stepGate at h
  unfold cxEntryOf
  cases hp : g.parameters[0]? with
  | none => rw [hp] at h; cases h
  | some e =>
    rw [hp] at h
    by_cases hu : nameBegins "u2" g.name = true
    · simp only [hu, if_true] at h ⊢
      cases h
      simp [foldAdd]
    · simp [hu] at h ⊢
      by_cases hc : nameBegins "cx" g.name = true
      · simp only [hc, if_true] at h ⊢
        cases hq : g.qubits[0]? with
        | none => rw [hq] at h; cases h
        | some ctl =>
          rw [hq] at h
          cases h
          simp [foldAdd]
      · simp [hc] at h ⊢
        cases h
        simp [foldAdd]

/-- A successful gate loop produces exactly the bucket fold of the
record's cx entries. -/
theorem processGates_ok_bucket {gs : List (RawGate V)} :
    ∀ {acc out : List V × Buckets V}, processGates acc gs = .ok out →
      out.2 = foldAdd acc.2 (cxEntries gs) := by
  induction gs with
  | nil =>
    intro acc out h
    unfold processGates at h
    cases h
    simp [cxEntries, foldAdd]
  | cons g gs ih =>
    intro acc out h
    unfold processGates at h
    cases hs : stepGate acc g with
    | error e => rw [hs] at h; cases h
    | ok acc2 =>
      rw [hs] at h
      have h2 := ih h
      rw [h2, stepGate_ok_bucket hs]
      simp [cxEntries, foldAdd, List.filterMap_cons]
      cases cxEntryOf g <;> simp

/-- Destructuring a successful extraction into its two loops. -/
theorem get_device_props_ok {raw : RawDeviceRecord V} {t : CalibrationTable V}
    (h : get_device_props raw = .ok t) :
    ∃ rows acc, extractQubitRowsFrom 0 raw.qubits = .ok rows ∧
      processGates ([], []) raw.gates = .ok acc ∧
      t.qubit = rows.map QubitRow.name ∧
      t.t1 = rows.map QubitRow.t1 ∧
      t.t2 = rows.map QubitRow.t2 ∧
      t.freq = rows.map QubitRow.freq ∧
      t.readout = rows.map QubitRow.readout ∧
      t.u2Error = acc.1 ∧ t.cnotError = acc.2 := by
  unfold get_device_props at h
  cases hr : extractQubitRowsFrom 0 raw.qubits with
  | error e => rw [hr] at h; cases h
  | ok rows =>
    rw [hr] at h
    cases hg : processGates ([], []) raw.gates with
    | error e => rw [hg] at h; cases h
    | ok acc =>
      rw [hg] at h
      cases h
      exact ⟨rows, acc, rfl, rfl, rfl, rfl, rfl, rfl, rfl, rfl, rfl⟩

/-- Length evolution of one bucket update, when the control id is at
most the current bucket count. -/
theorem addCx_length {bs : Buckets V} {c : Nat} (d : String × V) (h : c ≤ bs.length) :
    (addCx bs c d).length = if c = bs.length then bs.length + 1 else bs.length := by
  unfold addCx
  by_cases hc : c = bs.length
  · subst hc
    rw [if_pos (by omega), if_pos rfl]
    simp
  · have hlt : c < bs.length := Nat.lt_of_le_of_ne h hc
    rw [if_neg (by omega), if_neg hc, List.length_set]

/-- Content of one bucket after one bucket update, when the control id
is at most the current bucket count: bucket `c` grows by `d`, the others
are unchanged. -/
theorem addCx_getD {bs : Buckets V} {c : Nat} (d : String × V) (h : c ≤ bs.length) (q : Nat) :
    (addCx bs c d).getD q [] = bs.getD q [] ++ (if c = q then [d] else []) := by
  unfold addCx
  simp only [List.getD_eq_getElem?_getD]
  by_cases hc : c = bs.length
  · subst hc
    rw [if_pos (by omega), List.getElem?_append]
    by_cases hq : q < bs.length
    · rw [if_pos hq, if_neg (by omega)]
      simp
    · rw [if_neg hq]
      by_cases hq2 : q = bs.length
      · subst hq2
        simp [List.getElem?_eq_none (Nat.le_refl _)]
      · rw [if_neg (by omega), List.getElem?_eq_none (show bs.length ≤ q by omega),
          List.getElem?_eq_none (show ([[d]] : Buckets V).length ≤ q - bs.length by simp; omega)]
        simp
  · have hlt : c < bs.length := Nat.lt_of_le_of_ne h hc
    rw [if_neg (by omega)]
    by_cases hq : c = q
    · subst hq
      rw [List.getElem?_set_eq_of_lt _ hlt, if_pos rfl]
      simp
    · rw [List.getElem?_set_ne hq, if_neg hq]
      simp

/-- The bucket-fold invariant: under gap-free control order relative to
the current buckets, bucket `q` collects exactly the entries with
control id `q`, appended in encounter order. -/
theorem foldAdd_getD (entries : List (Nat × String × V)) :
    ∀ bs : Buckets V, ctlsOrdered bs.length (entries.map Prod.fst) = true →
      ∀ q, (foldAdd bs entries).getD q [] =
        bs.getD q [] ++ ((entries.filter (fun p => p.1 == q)).map Prod.snd) := by
  induction entries with
  | nil =>
    intro bs _ q
    simp [foldAdd]
  | cons p rest ih =>
    intro bs hord q
    obtain ⟨c, d⟩ := p
    simp only [List.map_cons, ctlsOrdered] at hord
    by_cases hc : c ≤ bs.length
    · rw [if_pos hc] at hord
      have hstep : foldAdd bs ((c, d) :: rest) = foldAdd (addCx bs c d) rest := by
        simp [foldAdd]
      have hord2 : ctlsOrdered (addCx bs c d).length (rest.map Prod.fst) = true := by
        rw [addCx_length d hc]
        exact hord
      rw [hstep, ih (addCx bs c d) hord2 q, addCx_getD d hc q, List.filter_cons]
      by_cases hq : c = q
      · subst hq
        simp [List.append_assoc]
      · simp [hq, List.append_assoc]
    · rw [if_neg hc] at hord
      cases hord

/-- Buckets are never empty lists: `addCx` creates buckets as singleton
lists and only ever appends to existing ones. -/
theorem addCx_ne_nil {bs : Buckets V} {c : Nat} {d : String × V}
    (h : ∀ (q : Nat) (l : List (String × V)), bs[q]? = some l → l ≠ []) :
    ∀ (q : Nat) (l : List (String × V)), (addCx bs c d)[q]? = some l → l ≠ [] := by
  intro q l hq
  unfold addCx at hq
  by_cases hc : c + 1 > bs.length
  · rw [if_pos hc, List.getElem?_append] at hq
    by_cases h2 : q < bs.length
    · rw [if_pos h2] at hq
      exact h q l hq
    · rw [if_neg h2] at hq
      have : l = [d] := by
        cases hi : q - bs.length with
        | zero => rw [hi] at hq; simp at hq; exact hq.symm
        | succ n => rw [hi] at hq; simp at hq
      simp [this]
  · rw [if_neg hc, List.getElem?_set] at hq
    by_cases h2 : c = q
    · rw [if_pos h2, if_pos (by omega)] at hq
      have : l = bs.getD c [] ++ [d] := by simpa using hq.symm
      simp [this]
    · rw [if_neg h2] at hq
      exact h q l hq

/-- The nonempty-bucket invariant, folded over a list of entries. -/
theorem foldAdd_ne_nil (entries : List (Nat × String × V)) :
    ∀ bs : Buckets V, (∀ (q : Nat) (l : List (String × V)), bs[q]? = some l → l ≠ []) →
      ∀ (q : Nat) (l : List (String × V)), (foldAdd bs entries)[q]? = some l → l ≠ [] := by
  induction entries with
  | nil =>
    intro bs h q l hq
    exact h q l (by simpa [foldAdd] using hq)
  | cons p rest ih =>
    intro bs h q l hq
    have hstep : foldAdd bs (p :: rest) = foldAdd (addCx bs p.1 p.2) rest := by
      simp [foldAdd]
    rw [hstep] at hq
    exact ih (addCx bs p.1 p.2) (addCx_ne_nil h) q l hq

/-- A successful row extraction fixes the label and forces at least five
measurement slots. -/
theorem extractQubitRow_ok {q : Nat} {slots : List V} {r : QubitRow V}
    (h : extractQubitRow q slots = .ok r) :
    r.name = "Q" ++ Nat.repr q ∧ 4 < slots.length := by
  unfold extractQubitRow at h
  cases h0 : slots[0]? with
  | none => rw [h0] at h; cases h
  | some a =>
    rw [h0] at h
    cases h1 : slots[1]? with
    | none => rw [h1] at h; cases h
    | some b =>
      rw [h1] at h
      cases h2 : slots[2]? with
      | none => rw [h2] at h; cases h
      | some c =>
        rw [h2] at h
        cases h4 : slots[4]? with
        | none => rw [h4] at h; cases h
        | some d =>
          rw [h4] at h
          cases h
          obtain ⟨hlt, -⟩ := List.getElem?_eq_some.mp h4
          exact ⟨rfl, hlt⟩

/-- A failed row extraction always fails with a slot-missing error. -/
theorem extractQubitRow_error {q : Nat} {slots : List V} {e : ExtractError}
    (h : extractQubitRow q slots = .error e) :
    ∃ q2 i, e = .qubitSlotMissing q2 i := by
  unfold extractQubitRow at h
  cases h0 : slots[0]? with
  | none => rw [h0] at h; cases h; exact ⟨q, 0, rfl⟩
  | some a =>
    rw [h0] at h
    cases h1 : slots[1]? with
    | none => rw [h1] at h; cases h; exact ⟨q, 1, rfl⟩
    | some b =>
      rw [h1] at h
      cases h2 : slots[2]? with
      | none => rw [h2] at h; cases h; exact ⟨q, 2, rfl⟩
      | some c =>
        rw [h2] at h
        cases h4 : slots[4]? with
        | none => rw [h4] at h; cases h; exact ⟨q, 4, rfl⟩
        | some d => rw [h4] at h; cases h

/-- A successful qubit loop: the labels column is `Q<q0>, Q<q0+1>, ...`,
one row per raw qubit, and every qubit had at least five slots. -/
theorem extractQubitRowsFrom_ok {qs : List (List V)} :
    ∀ {q0 : Nat} {rows : List (QubitRow V)}, extractQubitRowsFrom q0 qs = .ok rows →
      rows.map QubitRow.name = (List.range' q0 qs.length).map (fun i => "Q" ++ Nat.repr i) ∧
      rows.length = qs.length ∧ ∀ s ∈ qs, 4 < s.length := by
  induction qs with
  | nil =>
    intro q0 rows h
    unfold extractQubitRowsFrom at h
    cases h
    simp
  | cons s rest ih =>
    intro q0 rows h
    unfold extractQubitRowsFrom at h
    cases h0 : extractQubitRow q0 s with
    | error e => rw [h0] at h; cases h
    | ok r =>
      rw [h0] at h
      cases h1 : extractQubitRowsFrom (q0 + 1) rest with
      | error e => rw [h1] at h; cases h
      | ok rs =>
        rw [h1] at h
        cases h
        obtain ⟨hname, hslots⟩ := extractQubitRow_ok h0
        obtain ⟨hmap, hlen, hall⟩ := ih h1
        refine ⟨?_, by simp [hlen], ?_⟩
        · simp [List.range'_succ, hname, hmap]
        · intro t ht
          rcases List.mem_cons.mp ht with h | h
          · exact h ▸ hslots
          · exact hall t h

/-- A failed qubit loop always fails with a slot-missing error. -/
theorem extractQubitRowsFrom_error {qs : List (List V)} :
    ∀ {q0 : Nat} {e : ExtractError}, extractQubitRowsFrom q0 qs = .error e →
      ∃ q i, e = .qubitSlotMissing q i := by
  induction qs with
  | nil =>
    intro q0 e h
    unfold extractQubitRowsFrom at h
    cases h
  | cons s rest ih =>
    intro q0 e h
    unfold extractQubitRowsFrom at h
    cases h0 : extractQubitRow q0 s with
    | error e2 =>
      rw [h0] at h
      cases h
      exact extractQubitRow_error h0
    | ok r =>
      rw [h0] at h
      cases h1 : extractQubitRowsFrom (q0 + 1) rest with
      | error e2 => rw [h1] at h; cases h; exact ih h1
      | ok rs => rw [h1] at h; cases h

/-- Splitting on a character that does not occur returns the whole list
as the single piece. -/
theorem pySplit_no_sep {c : Char} : ∀ {l : List Char}, c ∉ l → pySplit c l = [l] := by
  intro l
  induction l with
  | nil => intro _; rfl
  | cons x xs ih =>
    intro h
    have hx : ¬x = c := fun e => h (e ▸ List.mem_cons_self x xs)
    have hxs : c ∉ xs := fun hm => h (List.mem_cons_of_mem x hm)
    simp only [pySplit]
    rw [ih hxs]
    simp [hx]

/-- A key with no underscore has no parseable target. -/
theorem targetLabelOfKey_none {k : String} (h : '_' ∉ k.data) :
    targetLabelOfKey k = none := by
  unfold targetLabelOfKey
  rw [pySplit_no_sep h]
  rfl

/-- The connected-qubits loop fails as soon as any entry of the bucket
has an unparseable key. -/
theorem connectedLoop_none :
    ∀ {l : List (String × V)} {k : String} {v : V},
      (k, v) ∈ l → targetLabelOfKey k = none → connectedLoop l = none := by
  intro l
  induction l with
  | nil => intro k v hm _; cases hm
  | cons d ds ih =>
    intro k v hm hk
    rcases List.mem_cons.mp hm with h | h
    · rw [← h]
      simp only [connectedLoop]
      rw [hk]
    · simp only [connectedLoop]
      rw [ih h hk]
      cases targetLabelOfKey d.1 <;> rfl

/-! Concrete inputs used by the counterexamples and witnesses. -/

/-- A table whose buckets are `[{cx0_1: 1}]` and `[{cx1_2: 2}]`. -/
def tableA : CalibrationTable Int :=
  ⟨["Q0", "Q1", "Q2"], [], [], [], [], [], [[("cx0_1", 1)], [("cx1_2", 2)]]⟩

/-- A table whose buckets are `[{cx0_1: 3}]` and `[{cx1_2: 4}]`. -/
def tableB : CalibrationTable Int :=
  ⟨["Q0", "Q1", "Q2"], [], [], [], [], [], [[("cx0_1", 3)], [("cx1_2", 4)]]⟩

/-- A table whose single bucket holds a key without an underscore. -/
def tableMal : CalibrationTable Int :=
  ⟨["Q0"], [], [], [], [], [], [[("cx01", 7)]]⟩

/-- The spec's round-trip shape: two qubits, one gate `cx0_1`. -/
def rawRT : RawDeviceRecord Int :=
  ⟨[[1, 2, 3, 4, 5], [6, 7, 8, 9, 10]], [⟨"cx0_1", [0, 1], [12]⟩]⟩

/-- The table extracted from `rawRT`. -/
def tableRT : CalibrationTable Int :=
  ⟨["Q0", "Q1"], [1, 6], [2, 7], [3, 8], [5, 10], [], [[("cx0_1", 12)]]⟩

/-- Two qubits, a `u2` gate and two cx gates with controls `0, 1`. -/
def rawOrd : RawDeviceRecord Int :=
  ⟨[[1, 2, 3, 4, 5], [6, 7, 8, 9, 10]],
   [⟨"u2_0", [0], [11]⟩, ⟨"cx0_1", [0, 1], [12]⟩, ⟨"cx1_0", [1, 0], [13]⟩]⟩

/-- The table extracted from `rawOrd`. -/
def tableOrd : CalibrationTable Int :=
  ⟨["Q0", "Q1"], [1, 6], [2, 7], [3, 8], [5, 10], [11],
   [[("cx0_1", 12)], [("cx1_0", 13)]]⟩

/-- A record whose single qubit has only three measurement slots. -/
def rawShort : RawDeviceRecord Int := ⟨[[1, 2, 3]], []⟩

/-! The claims. -/

/-- Claim C1, settled against the code: the reachability check of
`get_cx_error_rate` is NOT performed on the actual control argument. On
`tableA` the requested target `Q1` is a connected target of the
requested control `0`, yet the query raises the connectivity error,
because the probe reads the connected targets of the hardcoded qubit
`1` (which are `[Q2]`). -/
theorem c1_probe_hardcoded_on_qubit_one :
    get_cx_connected_qubits tableA 0 = some ["Q1"] ∧
    get_cx_connected_qubits tableA 1 = some ["Q2"] ∧
    get_cx_error_rate tableA 0 1 = Except.error QueryError.notConnected :=
  ⟨rfl, rfl, rfl⟩

/-- Claim C2, settled against the code: the round-trip fails. Extraction
of the two-qubit record with the single gate `{cx0_1: 12}` succeeds and
`Q1` is a connected target of control `0`, but `gate_error_rate` on
`(0, 1)` raises a propagated indexing error — the hardcoded probe reads
row `1` of the bucket column, which has only one bucket — instead of
returning `12`. -/
theorem c2_roundtrip_defeated_by_probe :
    get_device_props rawRT = Except.ok tableRT ∧
    get_cx_connected_qubits tableRT 0 = some ["Q1"] ∧
    get_cx_error_rate tableRT 0 1 = Except.error QueryError.indexError :=
  ⟨rfl, rfl, rfl⟩

/-- Claim C3: for a record whose cx control ids appear gap-free relative
to the buckets already created (in particular, in non-decreasing,
gap-free order), the extracted bucket at row `q` holds exactly the cx
gates whose control id is `q`, in encounter order — possibly none. -/
theorem c3_gapfree_buckets_exact (raw : RawDeviceRecord V) (t : CalibrationTable V) (q : Nat)
    (h1 : get_device_props raw = .ok t)
    (h2 : ctlsOrdered 0 ((cxEntries raw.gates).map Prod.fst) = true) :
    t.cnotError.getD q [] =
      ((cxEntries raw.gates).filter (fun p => p.1 == q)).map Prod.snd := by
  obtain ⟨rows, acc, hr, hg, _, _, _, _, _, _, hcx⟩ := get_device_props_ok h1
  rw [hcx, processGates_ok_bucket hg]
  have h := foldAdd_getD (cxEntries raw.gates) ([] : Buckets V) (by simpa using h2) q
  simpa using h

/-- Witness for C3 at the record `rawOrd`, row 0. -/
theorem c3_gapfree_buckets_exact_witness :
    ctlsOrdered 0 ((cxEntries rawOrd.gates).map Prod.fst) = true ∧
    tableOrd.cnotError.getD 0 [] =
      ((cxEntries rawOrd.gates).filter (fun p => p.1 == 0)).map Prod.snd :=
  ⟨by decide, c3_gapfree_buckets_exact rawOrd tableOrd 0 (by rfl) (by decide)⟩

/-- Claim C4, settled against the code: on `tableB` the pair `(0, 2)`
passes the (hardcoded) reachability check — `Q2` is among the probed
targets — and no key `cx0_2` exists in row 0, yet `get_cx_error_rate`
returns silently with no value (`Except.ok none`, Python's implicit
`return None`) instead of failing with an internal-consistency error. -/
theorem c4_no_match_returns_silent_none :
    get_cx_connected_qubits tableB 1 = some ["Q2"] ∧
    get_cx_error_rate tableB 0 2 = Except.ok none :=
  ⟨rfl, rfl⟩

/-- Claim C5: querying the error rate with equal control and target
fails with the distinct-qubits error, whatever the table holds. -/
theorem c5_equal_qubits_distinct_error (df : CalibrationTable V) (c : Nat) :
    get_cx_error_rate df c c = Except.error QueryError.distinctQubits := by
  unfold get_cx_error_rate
  rw [if_pos rfl]

/-- Claim C6, counterexample: in the extraction of `rawRT`, qubit `1` is
the control of no cx gate, yet `connected_targets(table, 1)` does not
return an empty sequence — it fails (the bucket column has a single
bucket, so reading row 1 is an out-of-range access). -/
theorem c6_counterexample_empty_control_fails :
    get_device_props rawRT = Except.ok tableRT ∧
    (∀ p ∈ cxEntries rawRT.gates, p.1 ≠ 1) ∧
    get_cx_connected_qubits tableRT 1 = none :=
  ⟨rfl, by decide, rfl⟩

/-- Claim C6 as amended: for a table produced by extraction and a qubit
`c` that is the control of no cx gate of the record,
`connected_targets(table, c)` never returns an empty sequence: buckets
are created non-empty, so the query either fails (out-of-range row, or
a malformed key) or returns a non-empty list of labels. -/
theorem c6_amended_never_empty (raw : RawDeviceRecord V) (t : CalibrationTable V) (c : Nat)
    (h1 : get_device_props raw = .ok t)
    (_hnoctl : ∀ p ∈ cxEntries raw.gates, p.1 ≠ c) :
    get_cx_connected_qubits t c ≠ some [] := by
  obtain ⟨rows, acc, hr, hg, _, _, _, _, _, _, hcx⟩ := get_device_props_ok h1
  unfold get_cx_connected_qubits
  rw [hcx, processGates_ok_bucket hg]
  cases hrow : (foldAdd ([] : Buckets V) (cxEntries raw.gates))[c]? with
  | none => simp
  | some l =>
    have hne : l ≠ [] :=
      foldAdd_ne_nil (cxEntries raw.gates) [] (by intro q l2 h; cases h) c l hrow
    cases l with
    | nil => exact absurd rfl hne
    | cons d ds =>
      simp only [connectedLoop]
      cases targetLabelOfKey d.1 with
      | none => simp
      | some lbl =>
        cases connectedLoop ds with
        | none => simp
        | some rest => simp

/-- Witness for the amended C6 at `rawRT`, qubit 1. -/
theorem c6_amended_never_empty_witness :
    get_device_props rawRT = Except.ok tableRT ∧
    (∀ p ∈ cxEntries rawRT.gates, p.1 ≠ 1) ∧
    get_cx_connected_qubits tableRT 1 ≠ some [] :=
  ⟨rfl, by decide, c6_amended_never_empty rawRT tableRT 1 (by rfl) (by decide)⟩

/-- Claim C7: a successful extraction of a record with `N` qubits yields
the labels column `Q0, ..., Q(N-1)` in id order, and all five per-qubit
columns have exactly `N` entries. -/
theorem c7_rows_and_labels (raw : RawDeviceRecord V) (t : CalibrationTable V)
    (h : get_device_props raw = .ok t) :
    t.qubit = (List.range raw.qubits.length).map (fun i => "Q" ++ Nat.repr i) ∧
    t.qubit.length = raw.qubits.length ∧
    t.t1.length = raw.qubits.length ∧
    t.t2.length = raw.qubits.length ∧
    t.freq.length = raw.qubits.length ∧
    t.readout.length = raw.qubits.length := by
  obtain ⟨rows, acc, hr, hg, hq, h1, h2, h3, h4, -, -⟩ := get_device_props_ok h
  obtain ⟨hmap, hlen, -⟩ := extractQubitRowsFrom_ok hr
  rw [List.range_eq_range']
  exact ⟨by rw [hq, hmap], by simp [hq, hlen], by simp [h1, hlen], by simp [h2, hlen],
    by simp [h3, hlen], by simp [h4, hlen]⟩

/-- Witness for C7 at `rawOrd`. -/
theorem c7_rows_and_labels_witness :
    get_device_props rawOrd = Except.ok tableOrd ∧
    tableOrd.qubit = (List.range rawOrd.qubits.length).map (fun i => "Q" ++ Nat.repr i) :=
  ⟨by rfl, (c7_rows_and_labels rawOrd tableOrd (by rfl)).1⟩

/-- Claim C8: a record in which some qubit has fewer than five
measurement slots makes extraction fail with a slot-missing
(out-of-range) error; no table is returned. -/
theorem c8_short_slots_extraction_fails (raw : RawDeviceRecord V)
    (h : ∃ s ∈ raw.qubits, s.length < 5) :
    ∃ q i, get_device_props raw = .error (.qubitSlotMissing q i) := by
  obtain ⟨s, hs, hlen⟩ := h
  unfold get_device_props
  cases hr : extractQubitRowsFrom 0 raw.qubits with
  | error e =>
    obtain ⟨q, i, rfl⟩ := extractQubitRowsFrom_error hr
    exact ⟨q, i, rfl⟩
  | ok rows =>
    obtain ⟨-, -, hall⟩ := extractQubitRowsFrom_ok hr
    exact absurd (hall s hs) (by omega)

/-- Witness for C8 at `rawShort`. -/
theorem c8_short_slots_extraction_fails_witness :
    (∃ s ∈ rawShort.qubits, s.length < 5) ∧
    ∃ q i, get_device_props rawShort = Except.error (ExtractError.qubitSlotMissing q i) :=
  ⟨⟨[1, 2, 3], by decide, by decide⟩,
   c8_short_slots_extraction_fails rawShort ⟨[1, 2, 3], by decide, by decide⟩⟩

/-- Claim C9: a cx gate whose control id `c` strictly exceeds the
current bucket count does not make the gate loop fail; the gate is
appended as a new singleton bucket at index `bs.length`, which is
strictly smaller than `c`. -/
theorem c9_gap_skip_appends_at_count (u2s : List V) (bs : Buckets V) (g : RawGate V)
    (e : V) (c : Nat)
    (hp : g.parameters[0]? = some e)
    (hu : nameBegins "u2" g.name = false)
    (hc : nameBegins "cx" g.name = true)
    (hq : g.qubits[0]? = some c)
    (hgap : bs.length < c) :
    stepGate (u2s, bs) g = .ok (u2s, bs ++ [[(g.name, e)]]) ∧
    (bs ++ [[(g.name, e)]])[bs.length]? = some [(g.name, e)] ∧
    bs.length < c := by
  refine ⟨?_, List.getElem?_concat_length _ _, hgap⟩
  unfold stepGate
  rw [hp]
  simp only [hu, hc, Bool.false_eq_true, if_false, if_true]
  rw [hq]
  have hif : c + 1 > bs.length := by omega
  simp [addCx, hif]

/-- Witness for C9: a gate `cx5_2` with control `5` arriving when only
one bucket exists is appended at index `1`. -/
theorem c9_gap_skip_appends_at_count_witness :
    ([[("cx0_1", (1 : Int))]] : Buckets Int).length < 5 ∧
    stepGate (([] : List Int), [[("cx0_1", (1 : Int))]]) ⟨"cx5_2", [5, 2], [9]⟩ =
      Except.ok (([] : List Int), [[("cx0_1", (1 : Int))]] ++ [[("cx5_2", 9)]]) :=
  ⟨by decide,
   (c9_gap_skip_appends_at_count [] [[("cx0_1", (1 : Int))]] ⟨"cx5_2", [5, 2], [9]⟩ 9 5
      (by decide) (by decide) (by decide) (by decide) (by decide)).1⟩

/-- Claim C10: if any entry of the control row's bucket has a key
without an underscore, `connected_targets` fails with an indexing
error — the query has no malformed-name guard of its own. -/
theorem c10_malformed_key_query_fails (t : CalibrationTable V) (ctl : Nat)
    (l : List (String × V)) (k : String) (v : V)
    (hrow : t.cnotError[ctl]? = some l) (hmem : (k, v) ∈ l) (hk : '_' ∉ k.data) :
    get_cx_connected_qubits t ctl = none := by
  unfold get_cx_connected_qubits
  rw [hrow]
  exact connectedLoop_none hmem (targetLabelOfKey_none hk)

/-- Witness for C10 at `tableMal`, whose row-0 key is `cx01`. -/
theorem c10_malformed_key_query_fails_witness :
    tableMal.cnotError[0]? = some [("cx01", (7 : Int))] ∧
    ("cx01", (7 : Int)) ∈ [("cx01", (7 : Int))] ∧
    ('_' ∉ "cx01".data) ∧
    get_cx_connected_qubits tableMal 0 = none :=
  ⟨rfl, by decide, by decide,
   c10_malformed_key_query_fails tableMal 0 [("cx01", (7 : Int))] "cx01" 7 rfl
     (by decide) (by decide)⟩

end RIIM
